import Mathlib

/-!
# Shallow embedding of the ngaro-rs virtual machine (`src/cpu.rs`)

This file embeds the Ngaro VM of `crcx/ngaro-rs` in Lean 4 and proves the
frozen specification claims about it.

Modelling conventions:
* Rust `i32` values are Lean `Int`s; where the source relies on two's
  complement wrap-around (release-profile arithmetic on `+`, `-`, `*`, `<<`,
  and the `ip` increments) we apply `wrap32` explicitly.  Division and
  remainder (`/`, `%` on `i32`) are checked operations in Rust in every
  profile: divisor `0`, and the overflowing pair `i32::MIN / -1`, panic; the
  embedding returns an explicit fault in those cases and `Int.tdiv`/`Int.tmod`
  (truncation toward zero, the Rust semantics) otherwise.
* `addr as usize` on a 64-bit target is `addr` reduced modulo `2^64`
  (`asUsize`); a negative `i32` therefore becomes a huge index, which is
  always out of bounds for any realistic vector, exactly as in the source.
* Rust `Vec<i32>` used as a stack becomes `List Int` with the top at the
  head (`push` = cons, `pop` = uncons).
* Rust panics (`expect`, `panic!`) and the `return None` arms of the
  `get_memory!` macro become `Fault` results; both stop execution.
* The file loader `Memory::new` is embedded as a function from the file's
  byte contents (a `List Nat`, each entry one byte) to the memory image;
  `Vec::with_capacity` is taken to allocate exactly the requested capacity.
-/

namespace Ngaro

/-- Two's-complement wrap of an integer into the `i32` range
`[-2147483648, 2147483648)`. -/
def wrap32 (x : Int) : Int := (x + 2147483648) % 4294967296 - 2147483648

/-- The `i32` range. -/
def isI32 (x : Int) : Prop := -2147483648 ≤ x ∧ x < 2147483648

instance (x : Int) : Decidable (isI32 x) := by unfold isI32; infer_instance

/-- Rust `x as usize` on a 64-bit target: reduce modulo `2^64` and view as a
machine index. -/
def asUsize (x : Int) : Nat := (x % 18446744073709551616).toNat

/-- The unsigned 32-bit representation of an `i32` value. -/
def toU32 (x : Int) : Nat := (x % 4294967296).toNat

/-- Bitwise `i32` operation, computed on the two's-complement representation. -/
def bitwise32 (f : Nat → Nat → Nat) (a b : Int) : Int :=
  wrap32 (Int.ofNat (f (toU32 a) (toU32 b)))

/-- `self.memory.memory_space.get(addr as usize)` — bounds-checked read. -/
def memGet (mem : List Int) (addr : Int) : Option Int := mem[asUsize addr]?

/-- The machine state: the three `Vec<i32>`s of `Memory`, the instruction
pointer, and the 12-element `ports` array of `CPU` (kept as a list; the real
machine always has exactly 12 entries). -/
structure Machine where
  dataStack : List Int
  addressStack : List Int
  memorySpace : List Int
  ip : Int
  ports : List Int
deriving Repr, DecidableEq

/-- The distinct fatal-stop paths of the interpreter.  `decodeOOB` and
`litOOB` are the `return None` arms of the `get_memory!` macro; the others
are panics (`expect` / `panic!`). -/
inductive Fault where
  | decodeOOB
  | litOOB
  | jumpOOB
  | fetchOOB
  | storeOOB
  | dataUnderflow
  | addressUnderflow
  | divByZero
  | divOverflow
deriving Repr, DecidableEq

/-- Result of one iteration of the `loop` in `CPU::next`: continue with a new
state, yield `Some(Wait)` to the caller, or stop fatally. -/
inductive StepResult where
  | ok (m : Machine)
  | wait (m : Machine)
  | fault (e : Fault)
deriving Repr, DecidableEq

/-- `self.ip += 1` (i32 increment). -/
def incIp (m : Machine) : Machine := { m with ip := wrap32 (m.ip + 1) }

/-- `pop_data`: `Vec::pop` on the data stack, `None` on empty (the source
`expect`s, i.e. panics, on `None`). -/
def popData (m : Machine) : Option (Int × Machine) :=
  match m.dataStack with
  | [] => none
  | x :: rest => some (x, { m with dataStack := rest })

/-- `push_data`. -/
def pushData (m : Machine) (x : Int) : Machine :=
  { m with dataStack := x :: m.dataStack }

/-- `pop_address`, `None` on empty. -/
def popAddress (m : Machine) : Option (Int × Machine) :=
  match m.addressStack with
  | [] => none
  | x :: rest => some (x, { m with addressStack := rest })

/-- `push_address`. -/
def pushAddress (m : Machine) (x : Int) : Machine :=
  { m with addressStack := x :: m.addressStack }

/-- `let (a, b) = (self.pop_data(), self.pop_data())`: `a` is the first value
popped (the old top), `b` the second. -/
def pop2 (m : Machine) : Option (Int × Int × Machine) :=
  match m.dataStack with
  | a :: b :: rest => some (a, b, { m with dataStack := rest })
  | _ => none

/-- `CPU::jump`: advance `ip`, read the jump target there (panicking when the
read is out of bounds), and set `ip` to target − 1 so the loop's trailing
increment lands on the target. -/
def jump (m : Machine) : Option Machine :=
  let m1 := incIp m
  match memGet m1.memorySpace m1.ip with
  | none => none
  | some t => some { m1 with ip := wrap32 (t - 1) }

/-- `CPU::cond_stack_jump`. -/
def condStackJump (cond : Int → Int → Bool) (m : Machine) : StepResult :=
  match pop2 m with
  | none => .fault .dataUnderflow
  | some (a, b, m1) =>
    if cond a b then
      match jump m1 with
      | none => .fault .jumpOOB
      | some m2 => .ok m2
    else .ok (incIp m1)

/-- `CPU::pop_2_push_1` (wrapping i32 result). -/
def pop2Push1 (f : Int → Int → Int) (m : Machine) : StepResult :=
  match pop2 m with
  | none => .fault .dataUnderflow
  | some (a, b, m1) => .ok (pushData m1 (wrap32 (f a b)))

/-- The body of the `match instruction` in `CPU::next`, for one decoded
instruction word.  An `ok` result still receives the loop's trailing
`self.ip += 1`; `wait` is the early `return Some(Wait)` that skips it. -/
def exec (instr : Int) (m : Machine) : StepResult :=
  if instr = 0 then -- NOP
    .ok m
  else if instr = 1 then -- LIT X
    let m1 := incIp m
    match memGet m1.memorySpace m1.ip with
    | none => .fault .litOOB
    | some d => .ok (pushData m1 d)
  else if instr = 2 then -- DUP
    match popData m with
    | none => .fault .dataUnderflow
    | some (x, m1) => .ok (pushData (pushData m1 x) x)
  else if instr = 3 then -- DROP
    match popData m with
    | none => .fault .dataUnderflow
    | some (_, m1) => .ok m1
  else if instr = 4 then -- SWAP
    match pop2 m with
    | none => .fault .dataUnderflow
    | some (a, b, m1) => .ok (pushData (pushData m1 a) b)
  else if instr = 5 then -- PUSH
    match popData m with
    | none => .fault .dataUnderflow
    | some (x, m1) => .ok (pushAddress m1 x)
  else if instr = 6 then -- POP
    match popAddress m with
    | none => .fault .addressUnderflow
    | some (x, m1) => .ok (pushData m1 x)
  else if instr = 7 then -- LOOP A
    match popData m with
    | none => .fault .dataUnderflow
    | some (d, m1) =>
      let d1 := wrap32 (d - 1)
      if d1 > 0 then
        match jump m1 with
        | none => .fault .jumpOOB
        | some m2 => .ok (pushData m2 d1)
      else .ok (incIp m1)
  else if instr = 8 then -- JUMP A
    match jump m with
    | none => .fault .jumpOOB
    | some m1 => .ok m1
  else if instr = 9 then -- RETURN
    match popAddress m with
    | none => .fault .addressUnderflow
    | some (a, m1) => .ok { m1 with ip := a }
  else if instr = 10 then -- GT_JUMP
    condStackJump (fun a b => decide (b > a)) m
  else if instr = 11 then -- LT_JUMP
    condStackJump (fun a b => decide (b < a)) m
  else if instr = 12 then -- NE_JUMP
    condStackJump (fun a b => decide (a ≠ b)) m
  else if instr = 13 then -- EQ_JUMP
    condStackJump (fun a b => decide (a = b)) m
  else if instr = 14 then -- FETCH
    match popData m with
    | none => .fault .dataUnderflow
    | some (addr, m1) =>
      match memGet m1.memorySpace addr with
      | none => .fault .fetchOOB
      | some d => .ok (pushData m1 d)
  else if instr = 15 then -- STORE
    match pop2 m with
    | none => .fault .dataUnderflow
    | some (addr, d, m1) =>
      if asUsize addr < m1.memorySpace.length then
        .ok { m1 with memorySpace := m1.memorySpace.set (asUsize addr) d }
      else .fault .storeOOB
  else if instr = 16 then -- ADD
    pop2Push1 (fun a b => a + b) m
  else if instr = 17 then -- SUBTRACT
    pop2Push1 (fun a b => b - a) m
  else if instr = 18 then -- MULTIPLY
    pop2Push1 (fun a b => a * b) m
  else if instr = 19 then -- DIVMOD
    match pop2 m with
    | none => .fault .dataUnderflow
    | some (a, b, m1) =>
      if a = 0 then .fault .divByZero
      else if a = -1 ∧ b = -2147483648 then .fault .divOverflow
      else .ok (pushData (pushData m1 (Int.tmod b a)) (Int.tdiv b a))
  else if instr = 20 then -- AND
    pop2Push1 (bitwise32 (· &&& ·)) m
  else if instr = 21 then -- OR
    pop2Push1 (bitwise32 (· ||| ·)) m
  else if instr = 22 then -- XOR
    pop2Push1 (bitwise32 (· ^^^ ·)) m
  else if instr = 23 then -- SHL
    pop2Push1 (fun a b => b * 2 ^ (asUsize a % 32)) m
  else if instr = 24 then -- SHR
    pop2Push1 (fun a b => (toU32 b >>> (asUsize a % 32) : Nat)) m
  else if instr = 25 then -- ZERO_EXIT
    match popData m with
    | none => .fault .dataUnderflow
    | some (d, m1) =>
      if d = 0 then
        match popAddress m1 with
        | none => .fault .addressUnderflow
        | some (a, m2) => .ok { m2 with ip := a }
      else .ok (pushData m1 d)
  else if instr = 26 then -- INC
    match popData m with
    | none => .fault .dataUnderflow
    | some (d, m1) => .ok (pushData m1 (wrap32 (d + 1)))
  else if instr = 27 then -- DEC
    match popData m with
    | none => .fault .dataUnderflow
    | some (d, m1) => .ok (pushData m1 (wrap32 (d - 1)))
  else if instr = 28 then -- IN
    match popData m with
    | none => .fault .dataUnderflow
    | some (p, m1) =>
      let d := (m1.ports[asUsize p]?).getD 0
      let m2 := pushData m1 d
      .ok { m2 with ports := m2.ports.set (asUsize p) 0 }
  else if instr = 29 then -- OUT
    match pop2 m with
    | none => .fault .dataUnderflow
    | some (p, d, m1) => .ok { m1 with ports := m1.ports.set (asUsize p) d }
  else if instr = 30 then -- WAIT
    if m.ports[0]? = some 0 then .wait m else .ok m
  else -- Implicit call
    .ok { (pushAddress m m.ip) with ip := wrap32 (instr - 1) }

/-- One iteration of the `loop` in `CPU::next`: decode the instruction at
`ip` (the `get_memory!` that `return None`s when out of bounds), execute it,
and apply the trailing `self.ip += 1` on the continuing paths. -/
def step (m : Machine) : StepResult :=
  match memGet m.memorySpace m.ip with
  | none => .fault .decodeOOB
  | some instr =>
    match exec instr m with
    | .ok m1 => .ok (incIp m1)
    | r => r

/-- Result of running `CPU::next` with bounded fuel: the loop either yields
`Wait` to the caller, stops fatally, or is still running when fuel runs out. -/
inductive RunResult where
  | wait (m : Machine)
  | fault (e : Fault)
  | outOfFuel (m : Machine)
deriving Repr, DecidableEq

/-- `CPU::next` as fuel-bounded iteration of `step`. -/
def run : Nat → Machine → RunResult
  | 0, m => .outOfFuel m
  | n + 1, m =>
    match step m with
    | .ok m1 => run n m1
    | .wait m1 => .wait m1
    | .fault e => .fault e

/-- Decode the byte stream into little-endian `i32` words, stopping at the
last complete word (the `read_i32::<LittleEndian>` loop of `Memory::new`;
`byteorder` reports `UnexpectedEOF` when fewer than 4 bytes remain). -/
def readWords : List Nat → List Int
  | b0 :: b1 :: b2 :: b3 :: rest =>
      wrap32 (Int.ofNat (b0 + 256 * b1 + 65536 * b2 + 16777216 * b3)) :: readWords rest
  | _ => []

/-- `Memory::new`, as a function of the image file's bytes: allocate
`max(file_len / 4, 1024*1024)` words of capacity, push the decoded words,
then pad with zeros until the length reaches the capacity. -/
def memoryNew (bytes : List Nat) : List Int :=
  let cap := max (bytes.length / 4) (1024 * 1024)
  let ws := readWords bytes
  ws ++ List.replicate (cap - ws.length) 0

/-- `Drop for Ports`: `self.ports.get_mut(0).map(|x| *x = 1)` — write 1 into
port 0 when it exists (`List.set` is a no-op out of bounds, matching
`get_mut(...).map`). -/
def portsDrop (ports : List Int) : List Int := ports.set 0 1

/-- `debug::opcode_to_name`'s `NAMES` table, verbatim from the source. -/
def NAMES : List String :=
  ["NOP", "LIT", "DUP", "DROP", "SWAP", "PUSH", "POP", "LOOP", "JUMP",
   "RETURN", "LT_JUMP", "GT_JUMP", "NE_JUMP", "EQ_JUMP", "FETCH", "STORE",
   "ADD", "SUBTRACT", "MULTIPLY", "DIVMOD", "AND", "OR", "XOR", "SHL",
   "SHR", "ZERO_EXIT", "INC", "DEC", "IN", "OUT", "WAIT"]

/-- `debug::opcode_to_name`: `NAMES.get(opcode as usize).map_or("CALL", ...)`. -/
def opcode_to_name (opcode : Int) : String :=
  (NAMES[asUsize opcode]?).getD "CALL"

/-! ## Arithmetic helper lemmas -/

theorem wrap32_eq_self {x : Int} (h : isI32 x) : wrap32 x = x := by
  unfold wrap32
  unfold isI32 at h
  omega

theorem wrap32_wrap32_add (x k : Int) : wrap32 (wrap32 x + k) = wrap32 (x + k) := by
  unfold wrap32
  omega

theorem asUsize_large {p : Int} (h32 : isI32 p) (h : p < 0 ∨ 12 ≤ p) :
    12 ≤ asUsize p := by
  unfold asUsize
  unfold isI32 at h32
  omega

/-- The read loop of `Memory::new` decodes exactly `⌊len/4⌋` words: a
trailing partial word is dropped without error. -/
theorem readWords_length (bs : List Nat) : (readWords bs).length = bs.length / 4 := by
  match bs with
  | b0 :: b1 :: b2 :: b3 :: rest =>
    have ih := readWords_length rest
    simp [readWords, ih]
    omega
  | [] => simp [readWords]
  | [_] => simp [readWords]
  | [_, _] => simp [readWords]
  | [_, _, _] => simp [readWords]

/-! ## Claim theorems -/

/-- C3: for an image file of `bytes.length` bytes containing
`n = bytes.length / 4` complete little-endian 32-bit words, `Memory::new`
decodes exactly those `n` words (the trailing partial word, if any, is
dropped without error), places them verbatim at addresses `0 .. n−1`, the
resulting memory space has length exactly `max n 1048576`, and every address
from `n` up to the end holds zero. -/
theorem memoryNew_loads_image_padded (bytes : List Nat) :
    (readWords bytes).length = bytes.length / 4 ∧
    (memoryNew bytes).length = max (bytes.length / 4) 1048576 ∧
    (∀ i : Nat, i < bytes.length / 4 →
      (memoryNew bytes)[i]? = (readWords bytes)[i]?) ∧
    (∀ i : Nat, bytes.length / 4 ≤ i → i < (memoryNew bytes).length →
      (memoryNew bytes)[i]? = some 0) := by
  have hlen := readWords_length bytes
  refine ⟨hlen, ?_, ?_, ?_⟩
  · simp [memoryNew, hlen]
  · intro i hi
    unfold memoryNew
    rw [List.getElem?_append]
    simp [hlen, hi]
  · intro i hi hilen
    unfold memoryNew
    rw [List.getElem?_append]
    rw [if_neg (by omega)]
    rw [List.getElem?_replicate, if_pos]
    simp [memoryNew, List.length_append, List.length_replicate, hlen] at hilen
    omega

/-- Witness for C3 at a concrete 9-byte image: two complete words and one
trailing byte; the trailing byte is ignored, word 0 is loaded verbatim, and
the space is padded to the 4 MiB minimum. -/
theorem memoryNew_loads_image_padded_witness :
    (readWords [1, 0, 0, 0, 2, 0, 0, 0, 5]).length = 2 ∧
    (memoryNew [1, 0, 0, 0, 2, 0, 0, 0, 5]).length = max 2 1048576 ∧
    (memoryNew [1, 0, 0, 0, 2, 0, 0, 0, 5])[0]? =
      (readWords [1, 0, 0, 0, 2, 0, 0, 0, 5])[0]? ∧
    (memoryNew [1, 0, 0, 0, 2, 0, 0, 0, 5])[2]? = some 0 :=
  ⟨(memoryNew_loads_image_padded [1, 0, 0, 0, 2, 0, 0, 0, 5]).1,
   (memoryNew_loads_image_padded [1, 0, 0, 0, 2, 0, 0, 0, 5]).2.1,
   (memoryNew_loads_image_padded [1, 0, 0, 0, 2, 0, 0, 0, 5]).2.2.1 0 (by decide),
   (memoryNew_loads_image_padded [1, 0, 0, 0, 2, 0, 0, 0, 5]).2.2.2 2 (by decide)
     (by rw [(memoryNew_loads_image_padded [1, 0, 0, 0, 2, 0, 0, 0, 5]).2.1]; decide)⟩

/-- C8: the `Drop` implementation for `Ports` (which Rust runs on every exit
path of a scoped access — normal, early return, or unwind) writes 1 into
port 0 and leaves every other port, in particular ports 1–11, unchanged. -/
theorem portsDrop_releases_port0 (ps : List Int) (h : 0 < ps.length) :
    (portsDrop ps)[0]? = some 1 ∧
    ∀ i : Nat, 1 ≤ i → (portsDrop ps)[i]? = ps[i]? := by
  constructor
  · exact List.getElem?_set_eq_of_lt _ h
  · intro i hi
    exact List.getElem?_set_ne (by omega)

/-- Witness for C8 on the CPU's actual 12-port array. -/
theorem portsDrop_releases_port0_witness :
    (portsDrop [0, 0, 0, 0, 0, 0, 0, 0, 0, 0, 0, 0])[0]? = some 1 ∧
    (portsDrop [0, 0, 0, 0, 0, 0, 0, 0, 0, 0, 0, 0])[5]? =
      ([0, 0, 0, 0, 0, 0, 0, 0, 0, 0, 0, 0] : List Int)[5]? :=
  ⟨(portsDrop_releases_port0 [0, 0, 0, 0, 0, 0, 0, 0, 0, 0, 0, 0] (by decide)).1,
   (portsDrop_releases_port0 [0, 0, 0, 0, 0, 0, 0, 0, 0, 0, 0, 0] (by decide)).2
     5 (by decide)⟩

/-- C9: the diagnostic `NAMES` table in `debug::opcode_to_name` is out of
step with the instruction set: it returns `"LT_JUMP"` for opcode 10 and
`"GT_JUMP"` for opcode 11, the reverse of what `CPU::next` implements
(opcode 10 is GT_JUMP, opcode 11 is LT_JUMP, as the dispatch comments and
the specification's instruction table both state).  The surrounding entries
and the `"CALL"` fallback for values ≥ 31 are as specified. -/
theorem opcode_to_name_swaps_10_and_11 :
    opcode_to_name 10 = "LT_JUMP" ∧ opcode_to_name 11 = "GT_JUMP" ∧
    opcode_to_name 0 = "NOP" ∧ opcode_to_name 9 = "RETURN" ∧
    opcode_to_name 12 = "NE_JUMP" ∧ opcode_to_name 30 = "WAIT" ∧
    opcode_to_name 31 = "CALL" ∧ opcode_to_name 100 = "CALL" := by
  refine ⟨rfl, rfl, rfl, rfl, rfl, rfl, rfl, rfl⟩

/-- Only the `WAIT` arm of the instruction dispatch can yield `Wait`, and it
does so with the machine state untouched, exactly when port 0 reads zero. -/
theorem exec_wait_inv {instr : Int} {m m' : Machine}
    (h : exec instr m = .wait m') :
    instr = 30 ∧ m.ports[0]? = some 0 ∧ m' = m := by
  unfold exec at h
  by_cases h0 : instr = 0
  · rw [if_pos h0] at h
    simp at h
  rw [if_neg h0] at h
  by_cases h1 : instr = 1
  · rw [if_pos h1] at h
    try simp only [condStackJump, pop2Push1, jump] at h
    repeat' split at h
    all_goals simp at h
  rw [if_neg h1] at h
  by_cases h2 : instr = 2
  · rw [if_pos h2] at h
    try simp only [condStackJump, pop2Push1, jump] at h
    repeat' split at h
    all_goals simp at h
  rw [if_neg h2] at h
  by_cases h3 : instr = 3
  · rw [if_pos h3] at h
    try simp only [condStackJump, pop2Push1, jump] at h
    repeat' split at h
    all_goals simp at h
  rw [if_neg h3] at h
  by_cases h4 : instr = 4
  · rw [if_pos h4] at h
    try simp only [condStackJump, pop2Push1, jump] at h
    repeat' split at h
    all_goals simp at h
  rw [if_neg h4] at h
  by_cases h5 : instr = 5
  · rw [if_pos h5] at h
    try simp only [condStackJump, pop2Push1, jump] at h
    repeat' split at h
    all_goals simp at h
  rw [if_neg h5] at h
  by_cases h6 : instr = 6
  · rw [if_pos h6] at h
    try simp only [condStackJump, pop2Push1, jump] at h
    repeat' split at h
    all_goals simp at h
  rw [if_neg h6] at h
  by_cases h7 : instr = 7
  · rw [if_pos h7] at h
    try simp only [condStackJump, pop2Push1, jump] at h
    repeat' split at h
    all_goals simp at h
  rw [if_neg h7] at h
  by_cases h8 : instr = 8
  · rw [if_pos h8] at h
    try simp only [condStackJump, pop2Push1, jump] at h
    repeat' split at h
    all_goals simp at h
  rw [if_neg h8] at h
  by_cases h9 : instr = 9
  · rw [if_pos h9] at h
    try simp only [condStackJump, pop2Push1, jump] at h
    repeat' split at h
    all_goals simp at h
  rw [if_neg h9] at h
  by_cases h10 : instr = 10
  · rw [if_pos h10] at h
    try simp only [condStackJump, pop2Push1, jump] at h
    repeat' split at h
    all_goals simp at h
  rw [if_neg h10] at h
  by_cases h11 : instr = 11
  · rw [if_pos h11] at h
    try simp only [condStackJump, pop2Push1, jump] at h
    repeat' split at h
    all_goals simp at h
  rw [if_neg h11] at h
  by_cases h12 : instr = 12
  · rw [if_pos h12] at h
    try simp only [condStackJump, pop2Push1, jump] at h
    repeat' split at h
    all_goals simp at h
  rw [if_neg h12] at h
  by_cases h13 : instr = 13
  · rw [if_pos h13] at h
    try simp only [condStackJump, pop2Push1, jump] at h
    repeat' split at h
    all_goals simp at h
  rw [if_neg h13] at h
  by_cases h14 : instr = 14
  · rw [if_pos h14] at h
    try simp only [condStackJump, pop2Push1, jump] at h
    repeat' split at h
    all_goals simp at h
  rw [if_neg h14] at h
  by_cases h15 : instr = 15
  · rw [if_pos h15] at h
    try simp only [condStackJump, pop2Push1, jump] at h
    repeat' split at h
    all_goals simp at h
  rw [if_neg h15] at h
  by_cases h16 : instr = 16
  · rw [if_pos h16] at h
    try simp only [condStackJump, pop2Push1, jump] at h
    repeat' split at h
    all_goals simp at h
  rw [if_neg h16] at h
  by_cases h17 : instr = 17
  · rw [if_pos h17] at h
    try simp only [condStackJump, pop2Push1, jump] at h
    repeat' split at h
    all_goals simp at h
  rw [if_neg h17] at h
  by_cases h18 : instr = 18
  · rw [if_pos h18] at h
    try simp only [condStackJump, pop2Push1, jump] at h
    repeat' split at h
    all_goals simp at h
  rw [if_neg h18] at h
  by_cases h19 : instr = 19
  · rw [if_pos h19] at h
    try simp only [condStackJump, pop2Push1, jump] at h
    repeat' split at h
    all_goals simp at h
  rw [if_neg h19] at h
  by_cases h20 : instr = 20
  · rw [if_pos h20] at h
    try simp only [condStackJump, pop2Push1, jump] at h
    repeat' split at h
    all_goals simp at h
  rw [if_neg h20] at h
  by_cases h21 : instr = 21
  · rw [if_pos h21] at h
    try simp only [condStackJump, pop2Push1, jump] at h
    repeat' split at h
    all_goals simp at h
  rw [if_neg h21] at h
  by_cases h22 : instr = 22
  · rw [if_pos h22] at h
    try simp only [condStackJump, pop2Push1, jump] at h
    repeat' split at h
    all_goals simp at h
  rw [if_neg h22] at h
  by_cases h23 : instr = 23
  · rw [if_pos h23] at h
    try simp only [condStackJump, pop2Push1, jump] at h
    repeat' split at h
    all_goals simp at h
  rw [if_neg h23] at h
  by_cases h24 : instr = 24
  · rw [if_pos h24] at h
    try simp only [condStackJump, pop2Push1, jump] at h
    repeat' split at h
    all_goals simp at h
  rw [if_neg h24] at h
  by_cases h25 : instr = 25
  · rw [if_pos h25] at h
    try simp only [condStackJump, pop2Push1, jump] at h
    repeat' split at h
    all_goals simp at h
  rw [if_neg h25] at h
  by_cases h26 : instr = 26
  · rw [if_pos h26] at h
    try simp only [condStackJump, pop2Push1, jump] at h
    repeat' split at h
    all_goals simp at h
  rw [if_neg h26] at h
  by_cases h27 : instr = 27
  · rw [if_pos h27] at h
    try simp only [condStackJump, pop2Push1, jump] at h
    repeat' split at h
    all_goals simp at h
  rw [if_neg h27] at h
  by_cases h28 : instr = 28
  · rw [if_pos h28] at h
    try simp only [condStackJump, pop2Push1, jump] at h
    repeat' split at h
    all_goals simp at h
  rw [if_neg h28] at h
  by_cases h29 : instr = 29
  · rw [if_pos h29] at h
    try simp only [condStackJump, pop2Push1, jump] at h
    repeat' split at h
    all_goals simp at h
  rw [if_neg h29] at h
  by_cases h30 : instr = 30
  · rw [if_pos h30] at h
    split at h
    · rename_i hp
      injection h with hm
      exact ⟨h30, hp, hm.symm⟩
    · simp at h
  · rw [if_neg h30] at h
    simp at h

/-- Unfolding one iteration of `CPU::next` once the decode at `ip` is
known. -/
theorem step_fetch {m : Machine} {i : Int}
    (hmem : memGet m.memorySpace m.ip = some i) :
    step m =
      (match exec i m with
       | .ok m1 => .ok (incIp m1)
       | r => r) := by
  unfold step
  rw [hmem]

/-- `CPU::next` yields `Wait` in an iteration exactly when the instruction
decoded at `ip` is `WAIT` and port 0 reads zero; the yield skips the trailing
`ip += 1`. -/
theorem step_wait_inv {m m' : Machine} (h : step m = .wait m') :
    memGet m.memorySpace m.ip = some 30 ∧ m.ports[0]? = some 0 ∧ m' = m := by
  rcases hmem : memGet m.memorySpace m.ip with _ | instr
  · unfold step at h
    rw [hmem] at h
    simp at h
  · rw [step_fetch hmem] at h
    rcases hex : exec instr m with m1 | m1 | e
    · rw [hex] at h
      simp at h
    · rw [hex] at h
      simp at h
      obtain ⟨h30, hp, hm⟩ := exec_wait_inv hex
      exact ⟨by rw [h30], hp, by rw [← h, hm]⟩
    · rw [hex] at h
      simp at h


/-! ### Per-opcode unfoldings of `exec` (definitional) -/

theorem exec_op1 (m : Machine) : exec 1 m =
    (let m1 := incIp m
     match memGet m1.memorySpace m1.ip with
     | none => .fault .litOOB
     | some d => .ok (pushData m1 d)) := rfl

theorem exec_op3 (m : Machine) : exec 3 m =
    (match popData m with
     | none => .fault .dataUnderflow
     | some (_, m1) => .ok m1) := rfl

theorem exec_op4 (m : Machine) : exec 4 m =
    (match pop2 m with
     | none => .fault .dataUnderflow
     | some (a, b, m1) => .ok (pushData (pushData m1 a) b)) := rfl

theorem exec_op6 (m : Machine) : exec 6 m =
    (match popAddress m with
     | none => .fault .addressUnderflow
     | some (x, m1) => .ok (pushData m1 x)) := rfl

theorem exec_op7 (m : Machine) : exec 7 m =
    (match popData m with
     | none => .fault .dataUnderflow
     | some (d, m1) =>
       let d1 := wrap32 (d - 1)
       if d1 > 0 then
         match jump m1 with
         | none => .fault .jumpOOB
         | some m2 => .ok (pushData m2 d1)
       else .ok (incIp m1)) := rfl

theorem exec_op8 (m : Machine) : exec 8 m =
    (match jump m with
     | none => .fault .jumpOOB
     | some m1 => .ok m1) := rfl

theorem exec_op9 (m : Machine) : exec 9 m =
    (match popAddress m with
     | none => .fault .addressUnderflow
     | some (a, m1) => .ok { m1 with ip := a }) := rfl

theorem exec_op14 (m : Machine) : exec 14 m =
    (match popData m with
     | none => .fault .dataUnderflow
     | some (addr, m1) =>
       match memGet m1.memorySpace addr with
       | none => .fault .fetchOOB
       | some d => .ok (pushData m1 d)) := rfl

theorem exec_op15 (m : Machine) : exec 15 m =
    (match pop2 m with
     | none => .fault .dataUnderflow
     | some (addr, d, m1) =>
       if asUsize addr < m1.memorySpace.length then
         .ok { m1 with memorySpace := m1.memorySpace.set (asUsize addr) d }
       else .fault .storeOOB) := rfl

theorem exec_op16 (m : Machine) : exec 16 m = pop2Push1 (fun a b => a + b) m := rfl

theorem exec_op17 (m : Machine) : exec 17 m = pop2Push1 (fun a b => b - a) m := rfl

theorem exec_op18 (m : Machine) : exec 18 m = pop2Push1 (fun a b => a * b) m := rfl

theorem exec_op19 (m : Machine) : exec 19 m =
    (match pop2 m with
     | none => .fault .dataUnderflow
     | some (a, b, m1) =>
       if a = 0 then .fault .divByZero
       else if a = -1 ∧ b = -2147483648 then .fault .divOverflow
       else .ok (pushData (pushData m1 (Int.tmod b a)) (Int.tdiv b a))) := rfl

theorem exec_op20 (m : Machine) : exec 20 m = pop2Push1 (bitwise32 (· &&& ·)) m := rfl

theorem exec_op21 (m : Machine) : exec 21 m = pop2Push1 (bitwise32 (· ||| ·)) m := rfl

theorem exec_op22 (m : Machine) : exec 22 m = pop2Push1 (bitwise32 (· ^^^ ·)) m := rfl

theorem exec_op23 (m : Machine) : exec 23 m =
    pop2Push1 (fun a b => b * 2 ^ (asUsize a % 32)) m := rfl

theorem exec_op24 (m : Machine) : exec 24 m =
    pop2Push1 (fun a b => (toU32 b >>> (asUsize a % 32) : Nat)) m := rfl

theorem exec_op25 (m : Machine) : exec 25 m =
    (match popData m with
     | none => .fault .dataUnderflow
     | some (d, m1) =>
       if d = 0 then
         match popAddress m1 with
         | none => .fault .addressUnderflow
         | some (a, m2) => .ok { m2 with ip := a }
       else .ok (pushData m1 d)) := rfl

theorem exec_op28 (m : Machine) : exec 28 m =
    (match popData m with
     | none => .fault .dataUnderflow
     | some (p, m1) =>
       let d := (m1.ports[asUsize p]?).getD 0
       let m2 := pushData m1 d
       .ok { m2 with ports := m2.ports.set (asUsize p) 0 }) := rfl

theorem exec_op29 (m : Machine) : exec 29 m =
    (match pop2 m with
     | none => .fault .dataUnderflow
     | some (p, d, m1) => .ok { m1 with ports := m1.ports.set (asUsize p) d }) := rfl

theorem exec_op30 (m : Machine) : exec 30 m =
    (if m.ports[0]? = some 0 then .wait m else .ok m) := rfl

/-- Any instruction word outside `0..30` falls into the implicit-call arm. -/
theorem exec_implicit_call {v : Int} (m : Machine) (hout : ¬(0 ≤ v ∧ v ≤ 30)) :
    exec v m = .ok { (pushAddress m m.ip) with ip := wrap32 (v - 1) } := by
  unfold exec
  rw [if_neg (show ¬(v = 0) by omega), if_neg (show ¬(v = 1) by omega), if_neg (show ¬(v = 2) by omega), if_neg (show ¬(v = 3) by omega), if_neg (show ¬(v = 4) by omega), if_neg (show ¬(v = 5) by omega), if_neg (show ¬(v = 6) by omega), if_neg (show ¬(v = 7) by omega), if_neg (show ¬(v = 8) by omega), if_neg (show ¬(v = 9) by omega), if_neg (show ¬(v = 10) by omega), if_neg (show ¬(v = 11) by omega), if_neg (show ¬(v = 12) by omega), if_neg (show ¬(v = 13) by omega), if_neg (show ¬(v = 14) by omega), if_neg (show ¬(v = 15) by omega), if_neg (show ¬(v = 16) by omega), if_neg (show ¬(v = 17) by omega), if_neg (show ¬(v = 18) by omega), if_neg (show ¬(v = 19) by omega), if_neg (show ¬(v = 20) by omega), if_neg (show ¬(v = 21) by omega), if_neg (show ¬(v = 22) by omega), if_neg (show ¬(v = 23) by omega), if_neg (show ¬(v = 24) by omega), if_neg (show ¬(v = 25) by omega), if_neg (show ¬(v = 26) by omega), if_neg (show ¬(v = 27) by omega), if_neg (show ¬(v = 28) by omega), if_neg (show ¬(v = 29) by omega), if_neg (show ¬(v = 30) by omega)]

/-- C1: an iteration of `CPU::next` yields the `Waiting` status exactly when
the instruction decoded at `ip` is `WAIT` (opcode 30) and port 0 reads zero;
in that case the whole state — in particular `ip`, still pointing at the
`WAIT` — is unchanged.  When port 0 is nonzero, the same `WAIT` executes as a
no-op and `ip` advances by 1 past it. -/
theorem next_waits_iff_wait_and_port0_zero (m : Machine) :
    ((∃ m', step m = .wait m') ↔
      (memGet m.memorySpace m.ip = some 30 ∧ m.ports[0]? = some 0)) ∧
    (memGet m.memorySpace m.ip = some 30 → m.ports[0]? = some 0 →
      step m = .wait m) ∧
    (memGet m.memorySpace m.ip = some 30 → m.ports[0]? ≠ some 0 →
      step m = .ok { m with ip := wrap32 (m.ip + 1) }) := by
  have hpos : memGet m.memorySpace m.ip = some 30 → m.ports[0]? = some 0 →
      step m = .wait m := by
    intro hmem hp
    rw [step_fetch hmem, exec_op30]
    simp [hp]
  refine ⟨⟨?_, ?_⟩, hpos, ?_⟩
  · rintro ⟨m', hw⟩
    obtain ⟨h30, hp, _⟩ := step_wait_inv hw
    exact ⟨h30, hp⟩
  · rintro ⟨h30, hp⟩
    exact ⟨m, hpos h30 hp⟩
  · intro hmem hp
    rw [step_fetch hmem, exec_op30]
    simp [hp, incIp]

/-- Witness for C1: with memory `[30]` and all twelve ports zero the machine
yields `Wait` leaving the state untouched; with port 0 set to 1 the `WAIT`
is a no-op advancing `ip` to 1. -/
theorem next_waits_iff_wait_and_port0_zero_witness :
    step ⟨[], [], [30], 0, [0, 0, 0, 0, 0, 0, 0, 0, 0, 0, 0, 0]⟩ =
      .wait ⟨[], [], [30], 0, [0, 0, 0, 0, 0, 0, 0, 0, 0, 0, 0, 0]⟩ ∧
    step ⟨[], [], [30], 0, [1, 0, 0, 0, 0, 0, 0, 0, 0, 0, 0, 0]⟩ =
      .ok ⟨[], [], [30], wrap32 (0 + 1), [1, 0, 0, 0, 0, 0, 0, 0, 0, 0, 0, 0]⟩ :=
  ⟨(next_waits_iff_wait_and_port0_zero
      ⟨[], [], [30], 0, [0, 0, 0, 0, 0, 0, 0, 0, 0, 0, 0, 0]⟩).2.1
      (by decide) (by decide),
   (next_waits_iff_wait_and_port0_zero
      ⟨[], [], [30], 0, [1, 0, 0, 0, 0, 0, 0, 0, 0, 0, 0, 0]⟩).2.2
      (by decide) (by decide)⟩

/-- C2: any instruction word `v` outside `0..30` decoded at address `p` is an
implicit call: `p` is pushed onto the address stack and, after the loop's
trailing increment lands on `(v − 1) + 1`, execution continues at address
`v`.  A subsequent `RETURN` (opcode 9) pops the saved `p` back into `ip`, so
the following increment resumes at `p + 1`. -/
theorem implicit_call_and_return (m : Machine) :
    (∀ v : Int, memGet m.memorySpace m.ip = some v → isI32 v →
      ¬(0 ≤ v ∧ v ≤ 30) →
      step m = .ok { m with addressStack := m.ip :: m.addressStack, ip := v }) ∧
    (∀ p : Int, ∀ rest : List Int, memGet m.memorySpace m.ip = some 9 →
      m.addressStack = p :: rest → isI32 (p + 1) →
      step m = .ok { m with addressStack := rest, ip := p + 1 }) := by
  constructor
  · intro v hmem h32 hout
    rw [step_fetch hmem]
    have hip : wrap32 (wrap32 (v - 1) + 1) = v := by
      rw [wrap32_wrap32_add]
      simpa using wrap32_eq_self h32
    rw [exec_implicit_call m hout]
    simp [incIp, pushAddress, hip]
  · intro p rest hmem haddr h32
    rw [step_fetch hmem, exec_op9]
    simp [popAddress, haddr, incIp, wrap32_eq_self h32]

/-- Witness for C2: word 35 at `ip = 0` pushes 0 and continues at 35; then a
`RETURN` with 10 on the address stack resumes at 11. -/
theorem implicit_call_and_return_witness :
    step ⟨[], [], [35], 0, []⟩ =
      .ok ⟨[], [0], [35], 35, []⟩ ∧
    step ⟨[], [10], [9], 0, []⟩ =
      .ok ⟨[], [], [9], 10 + 1, []⟩ :=
  ⟨(implicit_call_and_return ⟨[], [], [35], 0, []⟩).1 35
      (by decide) (by decide) (by decide),
   (implicit_call_and_return ⟨[], [10], [9], 0, []⟩).2 10 []
      (by decide) rfl (by decide)⟩

/-- C4: every out-of-bounds memory access — the decode fetch at `ip`, the
`LIT` operand fetch, a `JUMP` target read, a `FETCH` load, or a `STORE`
write outside bounds — is a fatal stop (the first two end `next` with
`None`, the others panic); none of these paths continues or yields a
default value. -/
theorem oob_accesses_are_fatal (m : Machine) :
    (memGet m.memorySpace m.ip = none → step m = .fault .decodeOOB) ∧
    (memGet m.memorySpace m.ip = some 1 →
      memGet m.memorySpace (wrap32 (m.ip + 1)) = none →
      step m = .fault .litOOB) ∧
    (memGet m.memorySpace m.ip = some 8 →
      memGet m.memorySpace (wrap32 (m.ip + 1)) = none →
      step m = .fault .jumpOOB) ∧
    (∀ addr : Int, ∀ rest : List Int, memGet m.memorySpace m.ip = some 14 →
      m.dataStack = addr :: rest → memGet m.memorySpace addr = none →
      step m = .fault .fetchOOB) ∧
    (∀ addr d : Int, ∀ rest : List Int, memGet m.memorySpace m.ip = some 15 →
      m.dataStack = addr :: d :: rest →
      m.memorySpace.length ≤ asUsize addr →
      step m = .fault .storeOOB) := by
  refine ⟨?_, ?_, ?_, ?_, ?_⟩
  · intro h
    unfold step
    rw [h]
  · intro h1 h2
    rw [step_fetch h1, exec_op1]
    simp [incIp, h2]
  · intro h8 h2
    rw [step_fetch h8, exec_op8]
    simp [jump, incIp, h2]
  · intro addr rest h14 hds hoob
    rw [step_fetch h14, exec_op14]
    simp [popData, hds, hoob]
  · intro addr d rest h15 hds hlen
    rw [step_fetch h15, exec_op15]
    have hnl : ¬ (asUsize addr < m.memorySpace.length) := Nat.not_lt.mpr hlen
    simp [pop2, hds, hnl]

/-- Witness for C4: decode at 5 in empty memory, `LIT`/`JUMP` with a missing
operand word, `FETCH`/`STORE` at address 50 of a 1-word memory — all fatal. -/
theorem oob_accesses_are_fatal_witness :
    step ⟨[], [], [], 5, []⟩ = .fault .decodeOOB ∧
    step ⟨[], [], [1], 0, []⟩ = .fault .litOOB ∧
    step ⟨[], [], [8], 0, []⟩ = .fault .jumpOOB ∧
    step ⟨[50], [], [14], 0, []⟩ = .fault .fetchOOB ∧
    step ⟨[50, 7], [], [15], 0, []⟩ = .fault .storeOOB :=
  ⟨(oob_accesses_are_fatal ⟨[], [], [], 5, []⟩).1 (by decide),
   (oob_accesses_are_fatal ⟨[], [], [1], 0, []⟩).2.1 (by decide) (by decide),
   (oob_accesses_are_fatal ⟨[], [], [8], 0, []⟩).2.2.1 (by decide) (by decide),
   (oob_accesses_are_fatal ⟨[50], [], [14], 0, []⟩).2.2.2.1 50 []
      (by decide) rfl (by decide),
   (oob_accesses_are_fatal ⟨[50, 7], [], [15], 0, []⟩).2.2.2.2 50 7 []
      (by decide) rfl (by decide)⟩

/-- C5: popping from an empty data stack (DROP, SWAP, every binary
arithmetic/logic operation including DIVMOD, or the public `pop_data`
accessor) and popping from an empty address stack (POP, RETURN, or a
ZERO_EXIT that takes its exit branch) are fatal underflows; no pop silently
returns a default value. -/
theorem empty_stack_pops_are_fatal (m : Machine) :
    (∀ c : Int, c ∈ ([3, 4, 16, 17, 18, 19, 20, 21, 22, 23, 24] : List Int) →
      memGet m.memorySpace m.ip = some c → m.dataStack = [] →
      step m = .fault .dataUnderflow) ∧
    (m.dataStack = [] → popData m = none) ∧
    (∀ c : Int, c ∈ ([6, 9] : List Int) →
      memGet m.memorySpace m.ip = some c → m.addressStack = [] →
      step m = .fault .addressUnderflow) ∧
    (∀ rest : List Int, memGet m.memorySpace m.ip = some 25 →
      m.dataStack = 0 :: rest → m.addressStack = [] →
      step m = .fault .addressUnderflow) := by
  refine ⟨?_, ?_, ?_, ?_⟩
  · intro c hc hmem hds
    fin_cases hc <;> rw [step_fetch hmem] <;>
      simp [exec_op3, exec_op4, exec_op16, exec_op17, exec_op18, exec_op19,
            exec_op20, exec_op21, exec_op22, exec_op23, exec_op24,
            pop2Push1, popData, pop2, hds]
  · intro hds
    simp [popData, hds]
  · intro c hc hmem has
    fin_cases hc <;> rw [step_fetch hmem] <;>
      simp [exec_op6, exec_op9, popAddress, has]
  · intro rest hmem hds has
    rw [step_fetch hmem, exec_op25]
    simp [popData, hds, popAddress, has]

/-- Witness for C5: DROP on an empty data stack, the public pop accessor on
an empty data stack, RETURN on an empty address stack, and ZERO_EXIT with a
zero on the data stack but an empty address stack. -/
theorem empty_stack_pops_are_fatal_witness :
    step ⟨[], [], [3], 0, []⟩ = .fault .dataUnderflow ∧
    popData ⟨[], [], [], 0, []⟩ = none ∧
    step ⟨[], [], [9], 0, []⟩ = .fault .addressUnderflow ∧
    step ⟨[0], [], [25], 0, []⟩ = .fault .addressUnderflow :=
  ⟨(empty_stack_pops_are_fatal ⟨[], [], [3], 0, []⟩).1 3
      (by decide) (by decide) rfl,
   (empty_stack_pops_are_fatal ⟨[], [], [], 0, []⟩).2.1 rfl,
   (empty_stack_pops_are_fatal ⟨[], [], [9], 0, []⟩).2.2.1 9
      (by decide) (by decide) rfl,
   (empty_stack_pops_are_fatal ⟨[0], [], [25], 0, []⟩).2.2.2 []
      (by decide) rfl rfl⟩

/-- C6 counterexample to the claim as stated: DIVMOD also faults for a
nonzero divisor — with first-popped `a = -1` and second-popped
`b = -2147483648` (`i32::MIN`), `b % a` and `b / a` overflow `i32` and Rust
panics — so "fatal exactly when a = 0" is false. -/
theorem divmod_faults_on_nonzero_divisor :
    step ⟨[-1, -2147483648], [], [19], 0, []⟩ = .fault .divOverflow ∧
    ((-1 : Int) ≠ 0) := by
  exact ⟨by decide, by decide⟩

/-- C6 (amended): DIVMOD with first-popped `a` and second-popped `b` pushes
the remainder `b % a` and then the quotient `b / a` (Rust's truncated
division, `Int.tmod`/`Int.tdiv`) whenever `a ≠ 0` and the division does not
overflow; it raises the fatal division-by-zero fault exactly when `a = 0`,
plus the `i32` overflow fault in the single case `a = -1`,
`b = -2147483648`.  No case produces a crash-free default result. -/
theorem divmod_pushes_rem_then_quot (m : Machine) (a b : Int) (rest : List Int)
    (hmem : memGet m.memorySpace m.ip = some 19)
    (hds : m.dataStack = a :: b :: rest) :
    (a = 0 → step m = .fault .divByZero) ∧
    (a = -1 → b = -2147483648 → step m = .fault .divOverflow) ∧
    (a ≠ 0 → ¬(a = -1 ∧ b = -2147483648) →
      step m = .ok { m with dataStack := Int.tdiv b a :: Int.tmod b a :: rest,
                            ip := wrap32 (m.ip + 1) }) := by
  refine ⟨?_, ?_, ?_⟩
  · intro ha
    rw [step_fetch hmem, exec_op19]
    simp [pop2, hds, ha]
  · intro ha hb
    rw [step_fetch hmem, exec_op19]
    simp [pop2, hds, ha, hb]
  · intro ha hnot
    rw [step_fetch hmem, exec_op19]
    simp [pop2, hds, ha, hnot, pushData, incIp]

/-- Witness for C6 at the specification's own example: pushing 7 then 2
leaves remainder 1 below quotient 3, and `ip` moves past the DIVMOD. -/
theorem divmod_pushes_rem_then_quot_witness :
    step ⟨[2, 7], [], [19], 0, []⟩ = .ok ⟨[3, 1], [], [19], 1, []⟩ := by
  have h := (divmod_pushes_rem_then_quot ⟨[2, 7], [], [19], 0, []⟩ 2 7 []
      (by decide) rfl).2.2 (by decide) (by decide)
  rw [h]
  decide

/-- C7: LOOP pops the counter and decrements it; when the decremented value
is still positive it jumps to the target read from the next memory word and
pushes the decremented value back; otherwise it falls through past the jump
operand (to `ip + 2`) and the value is discarded. -/
theorem loop_decrements_jumps_or_falls_through (m : Machine) (d : Int)
    (rest : List Int)
    (hmem : memGet m.memorySpace m.ip = some 7)
    (hds : m.dataStack = d :: rest) :
    (∀ t : Int, 0 < wrap32 (d - 1) →
      memGet m.memorySpace (wrap32 (m.ip + 1)) = some t → isI32 t →
      step m = .ok { m with dataStack := wrap32 (d - 1) :: rest, ip := t }) ∧
    (wrap32 (d - 1) ≤ 0 →
      step m = .ok { m with dataStack := rest, ip := wrap32 (m.ip + 2) }) := by
  constructor
  · intro t hpos ht h32
    rw [step_fetch hmem, exec_op7]
    have hip : wrap32 (wrap32 (t - 1) + 1) = t := by
      rw [wrap32_wrap32_add]
      simpa using wrap32_eq_self h32
    simp [popData, hds, hpos, jump, incIp, ht, pushData, hip]
  · intro hle
    rw [step_fetch hmem, exec_op7]
    have hip : wrap32 (wrap32 (m.ip + 1) + 1) = wrap32 (m.ip + 2) := by
      rw [wrap32_wrap32_add]
      congr 1
      ring
    simp [popData, hds, not_lt.mpr hle, incIp, hip]

/-- Witness for C7: a counter of 3 at a LOOP targeting address 0 jumps with
2 left on the stack; a counter of 1 falls through to `ip + 2` leaving no
residual value. -/
theorem loop_decrements_jumps_or_falls_through_witness :
    step ⟨[3], [], [7, 0], 0, []⟩ = .ok ⟨[2], [], [7, 0], 0, []⟩ ∧
    step ⟨[1], [], [7, 99], 0, []⟩ = .ok ⟨[], [], [7, 99], 2, []⟩ := by
  constructor
  · have h := (loop_decrements_jumps_or_falls_through ⟨[3], [], [7, 0], 0, []⟩
        3 [] (by decide) rfl).1 0 (by decide) (by decide) (by decide)
    rw [h]
    decide
  · have h := (loop_decrements_jumps_or_falls_through ⟨[1], [], [7, 99], 0, []⟩
        1 [] (by decide) rfl).2 (by decide)
    rw [h]
    decide

/-- C10: IN and OUT with a popped port index outside 0–11 (negative, or 12
and above) are harmless, in contrast to out-of-bounds memory accesses: IN
pushes 0 and modifies no port, OUT pops and discards its value and modifies
no port, and neither is a fatal error. -/
theorem in_out_oob_port_harmless (m : Machine) (p : Int)
    (hlen : m.ports.length = 12) (h32 : isI32 p) (hoob : p < 0 ∨ 12 ≤ p) :
    (∀ rest : List Int, memGet m.memorySpace m.ip = some 28 →
      m.dataStack = p :: rest →
      step m = .ok { m with dataStack := 0 :: rest, ip := wrap32 (m.ip + 1) }) ∧
    (∀ d : Int, ∀ rest : List Int, memGet m.memorySpace m.ip = some 29 →
      m.dataStack = p :: d :: rest →
      step m = .ok { m with dataStack := rest, ip := wrap32 (m.ip + 1) }) := by
  have hidx : 12 ≤ asUsize p := asUsize_large h32 hoob
  have hget : m.ports[asUsize p]? = none := List.getElem?_eq_none (by omega)
  have hset : ∀ v : Int, m.ports.set (asUsize p) v = m.ports := fun v =>
    List.set_eq_of_length_le (by omega)
  constructor
  · intro rest hmem hds
    rw [step_fetch hmem, exec_op28]
    simp [popData, hds, hget, hset, pushData, incIp]
  · intro d rest hmem hds
    rw [step_fetch hmem, exec_op29]
    simp [pop2, hds, hset, incIp]

/-- Witness for C10 at port index 50 on the CPU's 12-port array: IN pushes 0
and OUT drops its value, ports untouched, execution continuing. -/
theorem in_out_oob_port_harmless_witness :
    step ⟨[50], [], [28], 0, [0, 0, 0, 0, 0, 0, 0, 0, 0, 0, 0, 0]⟩ =
      .ok ⟨[0], [], [28], 1, [0, 0, 0, 0, 0, 0, 0, 0, 0, 0, 0, 0]⟩ ∧
    step ⟨[50, 9], [], [29], 0, [0, 0, 0, 0, 0, 0, 0, 0, 0, 0, 0, 0]⟩ =
      .ok ⟨[], [], [29], 1, [0, 0, 0, 0, 0, 0, 0, 0, 0, 0, 0, 0]⟩ := by
  constructor
  · have h := (in_out_oob_port_harmless
        ⟨[50], [], [28], 0, [0, 0, 0, 0, 0, 0, 0, 0, 0, 0, 0, 0]⟩
        50 rfl (by decide) (by decide)).1 [] (by decide) rfl
    rw [h]
    decide
  · have h := (in_out_oob_port_harmless
        ⟨[50, 9], [], [29], 0, [0, 0, 0, 0, 0, 0, 0, 0, 0, 0, 0, 0]⟩
        50 rfl (by decide) (by decide)).2 9 [] (by decide) rfl
    rw [h]
    decide

end Ngaro
